import Mathlib

/-!
# A shallow embedding of the `rustoa` client library (src/src/lib.rs)

The repository is a thin client over The Orange Alliance REST API.  All of
its interesting logic is pure data mapping: it parses a JSON response body
and normalizes or aggregates it.  We embed that logic here.

Modelling decisions:

* A JSON tree mirrors `serde_json::Value`: string, number, bool, null,
  array, object.  An object is an association list iterated in its stored
  order (serde's map iterates keys in a deterministic order; none of the
  embedded functions depend on which order that is).
* A JSON number mirrors serde's three-variant representation: `posInt`
  (serde `N::PosInt`, a `u64`, so its payload is a natural number below
  `2^64`), `negInt` (serde `N::NegInt`, a negative `i64`), and `float`
  (serde `N::Float`).  Machine floating point is modelled by exact
  rationals: the claims under study are about which shapes are accepted
  and which formula is applied, not about bit-level rounding of `f64`
  arithmetic.
* A Rust `panic!` (and an `Err` return) is modelled as `Option.none`:
  every fallible embedded function returns `Option`.
* The HTTP transport and the JSON text parser are external black boxes
  (the `reqwest` and `serde_json` crates); an embedded accessor therefore
  receives the parse result of the response body as an `Option Json`
  argument, `none` standing for "the body was not valid JSON".
-/

/-- serde_json's number: `PosInt(u64)`, `NegInt(i64)` (negative only), or
`Float(f64)` (modelled by an exact rational). -/
inductive JNum where
  | posInt : Nat → JNum
  | negInt : Int → JNum
  | float : Rat → JNum

/-- serde_json's `Value`. -/
inductive Json where
  | str : String → Json
  | num : JNum → Json
  | bool : Bool → Json
  | null : Json
  | arr : List Json → Json
  | obj : List (String × Json) → Json

/-- serde's `Number::as_u64`: `Some` exactly on the `PosInt` variant. -/
def JNum.asU64 : JNum → Option Nat
  | .posInt n => some n
  | .negInt _ => none
  | .float _ => none

/-- serde's `Number::as_f64`: every variant converts to a float
(modelled exactly). -/
def JNum.toRat : JNum → Rat
  | .posInt n => (n : Rat)
  | .negInt i => (i : Rat)
  | .float q => q

/-- `Value::as_array`. -/
def Json.asArray : Json → Option (List Json)
  | .arr l => some l
  | _ => none

/-- `Value::as_object` (the object as its iterated key/value sequence). -/
def Json.asObject : Json → Option (List (String × Json))
  | .obj l => some l
  | _ => none

/-- `Value::as_f64`. -/
def Json.asF64 : Json → Option Rat
  | .num n => some n.toRat
  | _ => none

/-- `Value::as_str`. -/
def Json.asStr : Json → Option String
  | .str s => some s
  | _ => none

/-- First value stored under a key in an object's entry list. -/
def lookupKey : List (String × Json) → String → Option Json
  | [], _ => none
  | p :: rest, k => if p.1 = k then some p.2 else lookupKey rest k

/-- serde's `value[key]` (`Index<&str> for Value`): the stored value, or
`Null` when the key is absent or the value is not an object. -/
def Json.index (j : Json) (k : String) : Json :=
  match j with
  | .obj l => (lookupKey l k).getD .null
  | _ => .null

/-! ## The Season registry (`enum Season`) -/

/-- `enum Season` of lib.rs: the four named FTC seasons. -/
inductive Season where
  | SkyStone
  | RoverRuckus
  | RelicRecovery
  | VelocityVortex
deriving DecidableEq

/-- `Season::value`: the season's 4-digit code (an `i32` in the source). -/
def Season.value : Season → Int
  | .SkyStone => 1920
  | .RoverRuckus => 1819
  | .RelicRecovery => 1718
  | .VelocityVortex => 1617

/-- `Season::value_of`: the inverse string lookup; the wildcard arm panics
("That season does not exist in the TOA database."), modelled as `none`. -/
def Season.value_of (s : String) : Option Season :=
  if s = "1920" then some .SkyStone
  else if s = "1819" then some .RoverRuckus
  else if s = "1718" then some .RelicRecovery
  else if s = "1617" then some .VelocityVortex
  else none

/-- `impl Display for Season`: the label written by `format!("{}", season)`. -/
def Season.display : Season → String
  | .SkyStone => "Season::SkyStone"
  | .RoverRuckus => "Season::RoverRuckus"
  | .RelicRecovery => "Season::RelicRecovery"
  | .VelocityVortex => "Season::VelocityVortex"

/-! ## HashMap insertion

`HashMap::insert` replaces the value of a present key and otherwise adds a
fresh entry; the map is modelled as its entry list. -/

def containsKey : List (String × String) → String → Bool
  | [], _ => false
  | p :: rest, k => if p.1 = k then true else containsKey rest k

def insertMap : List (String × String) → String → String → List (String × String)
  | [], k, v => [(k, v)]
  | p :: rest, k, v => if p.1 = k then (k, v) :: rest else p :: insertMap rest k v

/-! ## The property normalizers (`Team::properties`, `Event::properties`) -/

/-- The value-coercion arm of the loop in `Team::properties` (lib.rs
lines 235-243): string to itself, number through `as_u64` to its decimal
string, null to `"null"`; every other variant — including `Bool`, which
this `match` does not name — hits the `_ => panic!` arm. -/
def coerceTeam : Json → Option String
  | .str s => some s
  | .num n => n.asU64.map toString
  | .null => some "null"
  | _ => none

/-- The value-coercion arm of the loop in `Event::properties` (lib.rs
lines 581-593): as `coerceTeam`, but with an explicit `Bool` arm mapping
to `"true"`/`"false"`. -/
def coerceEvent : Json → Option String
  | .str s => some s
  | .num n => n.asU64.map toString
  | .null => some "null"
  | .bool b => some (if b then "true" else "false")
  | _ => none

/-- One iteration of the loop in `Team::properties`: coerce the value;
under the reserved key `"last_active"` re-interpret the coerced string as a
season code and store the season's display label instead. -/
def teamStep : Option (List (String × String)) → String × Json → Option (List (String × String))
  | none, _ => none
  | some m, (k, v) =>
    match coerceTeam v with
    | none => none
    | some s =>
      if k = "last_active" then
        match Season.value_of s with
        | none => none
        | some season => some (insertMap m k season.display)
      else some (insertMap m k s)

/-- One iteration of the loop in `Event::properties`: coerce and insert
(no reserved key). -/
def eventStep : Option (List (String × String)) → String × Json → Option (List (String × String))
  | none, _ => none
  | some m, (k, v) =>
    match coerceEvent v with
    | none => none
    | some s => some (insertMap m k s)

/-- `Team::properties` from the first array element on: `as_object`, then
the normalization loop. -/
def teamFromFirst (v : Json) : Option (List (String × String)) :=
  match v.asObject with
  | none => none
  | some fields => fields.foldl teamStep (some [])

/-- `Event::properties` from the first array element on. -/
def eventFromFirst (v : Json) : Option (List (String × String)) :=
  match v.asObject with
  | none => none
  | some fields => fields.foldl eventStep (some [])

/-- `Team::properties` on a decoded body (`none` = the body was not valid
JSON).  `item[0]` indexes a `Vec` in the source, so an empty array panics
(index out of bounds); a non-array panics at `as_array`. -/
def team_properties (body : Option Json) : Option (List (String × String)) :=
  match body with
  | none => none
  | some j =>
    match j.asArray with
    | none => none
    | some [] => none
    | some (v :: _) => teamFromFirst v

/-- `Event::properties` on a decoded body; same shape handling as
`team_properties`. -/
def event_properties (body : Option Json) : Option (List (String × String)) :=
  match body with
  | none => none
  | some j =>
    match j.asArray with
    | none => none
    | some [] => none
    | some (v :: _) => eventFromFirst v

/-! ## The aggregators (`Team::get_season_data`, `Event::get_rankings_data`) -/

/-- `f64::round` on the exact-rational model: nearest integer, halves away
from zero. -/
def roundRust (q : Rat) : Int :=
  if 0 ≤ q then (q + 1/2).floor else (q - 1/2).ceil

/-- The accumulation loop of `Team::get_season_data`: for each record,
index it by the query string (missing key or non-object gives `Null`),
read the value with `as_f64` (panic when that fails), and add it to the
running total `i` (which starts at `0.0`). -/
def sumLoop (arr : List Json) (q : String) (i : Rat) : Option Rat :=
  match arr with
  | [] => some i
  | v :: rest =>
    match (v.index q).asF64 with
    | none => none
    | some n => sumLoop rest q (i + n)

/-- `Team::get_season_data` on a decoded body: `as_array` (panic
otherwise), sum the query field over every record, then
`(i * 100.0).round() / 100.0`. -/
def get_season_data (body : Option Json) (query : String) : Option Rat :=
  match body with
  | none => none
  | some j =>
    match j.asArray with
    | none => none
    | some arr =>
      match sumLoop arr query 0 with
      | none => none
      | some i => some ((roundRust (i * 100) : Rat) / 100)

/-- Rust's `f as u32` saturating cast from a float (modelled exactly):
truncate toward zero, clamp into `[0, 2^32 - 1]`. -/
def ratToU32 (q : Rat) : Nat :=
  if q ≤ 0 then 0 else min q.floor.toNat 4294967295

/-- The scan loop of `Event::get_rankings_data`: for each record read
`val["team"]["team_number"]` with `as_f64` (panic when malformed), cast it
to `u32` and compare with the requested number; on a match return the
query field's `as_f64` value, but `continue` scanning when that field is
missing or non-numeric; falling off the end panics. -/
def rankLoop (arr : List Json) (t : Nat) (q : String) : Option Rat :=
  match arr with
  | [] => none
  | v :: rest =>
    match ((v.index "team").index "team_number").asF64 with
    | none => none
    | some n =>
      if ratToU32 n = t then
        match (v.index q).asF64 with
        | some r => some r
        | none => rankLoop rest t q
      else rankLoop rest t q

/-- `Event::get_rankings_data` on a decoded body: `as_array` (panic
otherwise) then the scan loop. -/
def get_rankings_data (body : Option Json) (t : Nat) (q : String) : Option Rat :=
  match body with
  | none => none
  | some j =>
    match j.asArray with
    | none => none
    | some arr => rankLoop arr t q

/-! ## Event-map key construction (`Team::events`) -/

/-- `str::to_lowercase` restricted to the ASCII range (every event name
and key in play is ASCII). -/
def lowerStr (s : String) : String :=
  String.mk (s.data.map Char.toLower)

/-- The candidate map key: the event's display name with every space
replaced by an underscore (`raw_key.replace(" ", "_")`), lower-cased. -/
def candKey (name : String) : String :=
  lowerStr (String.mk (name.data.map fun c => if c = ' ' then '_' else c))

/-- Is a character matched by the regex class `\w`? (ASCII model.) -/
def isWordChar (c : Char) : Bool :=
  c.isAlphanum || c = '_'

/-- Match the regex `\d{4}-\w+-` at the head of the character list:
four digits, a dash, a maximal non-empty run of word characters, a dash.
(`-` is not a word character, so the greedy `\w+` is the maximal run.)
Returns the remainder after the match. -/
def matchPat : List Char → Option (List Char)
  | a :: b :: c :: d :: '-' :: rest =>
    if a.isDigit && b.isDigit && c.isDigit && d.isDigit then
      let run := rest.takeWhile isWordChar
      if run.isEmpty then none
      else
        match rest.drop run.length with
        | '-' :: r => some r
        | _ => none
    else none
  | _ => none

/-- `Regex::replace_all` with the empty replacement: scan left to right,
delete each leftmost match, resume after it.  A successful `matchPat`
consumes at least seven characters, so fuel equal to the input length
never runs out. -/
def stripAllAux : Nat → List Char → List Char
  | 0, l => l
  | _ + 1, [] => []
  | fuel + 1, c :: rest =>
    match matchPat (c :: rest) with
    | some r => stripAllAux fuel r
    | none => c :: stripAllAux fuel rest

/-- Delete every occurrence of `\d{4}-\w+-` from a string
(`re.replace_all(&event_key, "")` in `Team::events`). -/
def stripPat (s : String) : String :=
  String.mk (stripAllAux s.data.length s.data)

/-- One iteration of the map-building loop in `Team::events`.  The input
pair is `(event_key, display name)` — the name is what `Event::name()`
fetches for that key — and the stored map value is the event's key
(standing for the `Event` object).  The candidate key is `candKey name`;
when the map already contains it, the key becomes the candidate followed
by `"_"` and the stripped, lower-cased raw event key. -/
def eventsStep (emap : List (String × String)) (e : String × String) : List (String × String) :=
  if containsKey emap (candKey e.2) then
    insertMap emap (candKey e.2 ++ "_" ++ lowerStr (stripPat e.1)) e.1
  else
    insertMap emap (candKey e.2) e.1

/-- The map-building loop of `Team::events` over the fetched
`(event_key, display name)` pairs, starting from the empty map. -/
def eventsFold (l : List (String × String)) : List (String × String) :=
  l.foldl eventsStep []

/-- The query field's numeric value of every record in order, `none` as
soon as one record's field is missing or non-numeric.  Specification-side
companion of `sumLoop`. -/
def extractNums : List Json → String → Option (List Rat)
  | [], _ => some []
  | v :: rest, q =>
    match (v.index q).asF64 with
    | none => none
    | some n =>
      match extractNums rest q with
      | none => none
      | some ns => some (n :: ns)

/-! # Helper lemmas -/

/-- `sumLoop` succeeds exactly when every record yields a number, and then
it adds those numbers to its accumulator. -/
theorem sumLoop_eq_extractNums (arr : List Json) (q : String) :
    ∀ i : Rat, sumLoop arr q i = (extractNums arr q).map fun ns => i + ns.sum := by
  induction arr with
  | nil => intro i; simp [sumLoop, extractNums]
  | cons v rest ih =>
    intro i
    cases h : (v.index q).asF64 with
    | none => simp [sumLoop, extractNums, h]
    | some n =>
      have hrest := ih (i + n)
      cases h2 : extractNums rest q with
      | none =>
        rw [h2] at hrest
        simp [sumLoop, extractNums, h, h2, hrest]
      | some ns =>
        rw [h2] at hrest
        simp [sumLoop, extractNums, h, h2, hrest, add_assoc]

/-- A record with a missing or non-numeric field makes `extractNums`
fail. -/
theorem extractNums_none_of_bad (arr : List Json) (q : String)
    (h : ∃ v ∈ arr, (v.index q).asF64 = none) : extractNums arr q = none := by
  induction arr with
  | nil => simp at h
  | cons v rest ih =>
    simp only [extractNums]
    rcases h with ⟨w, hw, hbad⟩
    rcases List.mem_cons.mp hw with rfl | hmem
    · rw [hbad]
    · cases hv : (v.index q).asF64 with
      | none => rfl
      | some n => rw [ih ⟨w, hmem, hbad⟩]

/-- A string never equals itself extended by an underscore and a tail. -/
theorem append_underscore_ne (a x : String) : a ++ "_" ++ x ≠ a := by
  intro h
  have h2 := congrArg String.length h
  rw [String.length_append, String.length_append] at h2
  have h3 : ("_" : String).length = 1 := rfl
  omega

/-! # The claims -/

/-- Claim C5: for each of the four Season values, converting the season to
its 4-digit code with `value` and re-interpreting that code's decimal
string with `value_of` yields the original season; and the season-to-code
mapping is total (it is a Lean function) and injective. -/
theorem season_code_roundtrip :
    (∀ s : Season, Season.value_of (toString s.value) = some s) ∧
    (∀ s t : Season, s.value = t.value → s = t) := by
  constructor
  · intro s; cases s <;> rfl
  · intro s t h
    cases s <;> cases t <;> first | rfl | (exfalso; revert h; decide)

/-- Witness for C5: the round trip and injectivity at concrete seasons. -/
theorem season_code_roundtrip_witness :
    Season.value_of (toString Season.SkyStone.value) = some Season.SkyStone ∧
    Season.SkyStone = Season.SkyStone :=
  ⟨season_code_roundtrip.1 Season.SkyStone,
   season_code_roundtrip.2 Season.SkyStone Season.SkyStone rfl⟩

/-- Claim C6: `Season::value_of` on any string other than the four
recognized codes fails (the wildcard arm panics) rather than returning a
season. -/
theorem value_of_unknown_fails (s : String)
    (h1 : s ≠ "1920") (h2 : s ≠ "1819") (h3 : s ≠ "1718") (h4 : s ≠ "1617") :
    Season.value_of s = none := by
  unfold Season.value_of
  rw [if_neg h1, if_neg h2, if_neg h3, if_neg h4]

/-- Witness for C6 at the concrete string "2021". -/
theorem value_of_unknown_fails_witness : Season.value_of "2021" = none :=
  value_of_unknown_fails "2021" (by decide) (by decide) (by decide) (by decide)

/-- Claim C4: on a rankings array with records for teams 100, 200 and 300,
requesting team 200's "rank" returns exactly that record's value, and
requesting absent team 999 fails with the not-found outcome. -/
theorem rankings_find_by_team_example :
    get_rankings_data (some (.arr [
      .obj [("team", .obj [("team_number", .num (.posInt 100))]), ("rank", .num (.posInt 1))],
      .obj [("team", .obj [("team_number", .num (.posInt 200))]), ("rank", .num (.posInt 2))],
      .obj [("team", .obj [("team_number", .num (.posInt 300))]), ("rank", .num (.posInt 3))]]))
      200 "rank" = some 2 ∧
    get_rankings_data (some (.arr [
      .obj [("team", .obj [("team_number", .num (.posInt 100))]), ("rank", .num (.posInt 1))],
      .obj [("team", .obj [("team_number", .num (.posInt 200))]), ("rank", .num (.posInt 2))],
      .obj [("team", .obj [("team_number", .num (.posInt 300))]), ("rank", .num (.posInt 3))]]))
      999 "rank" = none := by
  constructor <;> decide

/-- Counterexample to claim C1 as stated: `Team::properties` does not
coerce a boolean to "true"/"false" (its `match` has no `Bool` arm, so a
boolean hits the panic arm), and an integral JSON number that is negative
is not coerced to its decimal string (the code goes through `as_u64`). -/
theorem team_properties_bool_and_negative_fail :
    team_properties (some (.arr [.obj [("remote", .bool true)]])) = none ∧
    team_properties (some (.arr [.obj [("x", .num (.negInt (-5)))]])) = none := by
  constructor <;> decide

/-- Claim C1 as amended: the coercion rule of both property normalizers,
per JSON variant.  A string maps to itself; a number maps to its decimal
string only when `as_u64` accepts it (a non-negative integer representable
in a `u64`), and is an unrecoverable error otherwise; null maps to
`"null"`; a boolean maps to `"true"`/`"false"` in `Event::properties` but
is an unrecoverable error in `Team::properties`; a nested array or object
is an unrecoverable error in both.  End to end, a normalized map holds
only the coerced strings. -/
theorem property_value_coercion :
    (∀ s, coerceTeam (.str s) = some s ∧ coerceEvent (.str s) = some s) ∧
    (∀ n, coerceTeam (.num (.posInt n)) = some (toString n) ∧
      coerceEvent (.num (.posInt n)) = some (toString n)) ∧
    (coerceTeam .null = some "null" ∧ coerceEvent .null = some "null") ∧
    (∀ b, coerceTeam (.bool b) = none) ∧
    (coerceEvent (.bool true) = some "true" ∧ coerceEvent (.bool false) = some "false") ∧
    (∀ i, coerceTeam (.num (.negInt i)) = none ∧ coerceEvent (.num (.negInt i)) = none) ∧
    (∀ x, coerceTeam (.num (.float x)) = none ∧ coerceEvent (.num (.float x)) = none) ∧
    (∀ l, coerceTeam (.arr l) = none ∧ coerceEvent (.arr l) = none) ∧
    (∀ o, coerceTeam (.obj o) = none ∧ coerceEvent (.obj o) = none) ∧
    team_properties (some (.arr [.obj
      [("nickname", .str "Foo"), ("rookie_year", .num (.posInt 2019)), ("x", .null)]])) =
      some [("nickname", "Foo"), ("rookie_year", "2019"), ("x", "null")] ∧
    event_properties (some (.arr [.obj [("active", .bool true), ("n", .num (.posInt 7))]])) =
      some [("active", "true"), ("n", "7")] :=
  ⟨fun _ => ⟨rfl, rfl⟩, fun _ => ⟨rfl, rfl⟩, ⟨rfl, rfl⟩, fun _ => rfl, ⟨rfl, rfl⟩,
   fun _ => ⟨rfl, rfl⟩, fun _ => ⟨rfl, rfl⟩, fun _ => ⟨rfl, rfl⟩, fun _ => ⟨rfl, rfl⟩,
   by decide, by decide⟩

/-- Claim C8: in `Team::properties`, a key equal to the reserved name
"last_active" has its coerced string value re-interpreted through
`Season::value_of` and the stored value is the season's display label;
every other key keeps its coerced value unchanged.  Concretely, input
"1920" under that key yields the SkyStone label, not the raw digits. -/
theorem last_active_label_substitution :
    (∀ m j s season, coerceTeam j = some s → Season.value_of s = some season →
      teamStep (some m) ("last_active", j) = some (insertMap m "last_active" season.display)) ∧
    (∀ m k j s, k ≠ "last_active" → coerceTeam j = some s →
      teamStep (some m) (k, j) = some (insertMap m k s)) ∧
    team_properties (some (.arr [.obj [("last_active", .str "1920")]])) =
      some [("last_active", "Season::SkyStone")] := by
  refine ⟨?_, ?_, by decide⟩
  · intro m j s season h1 h2
    simp [teamStep, h1, h2]
  · intro m k j s hk h1
    simp [teamStep, h1, hk]

/-- Witness for C8: the substitution at the concrete value "1920" and the
unchanged coercion at the key "rookie_year". -/
theorem last_active_label_substitution_witness :
    teamStep (some []) ("last_active", .str "1920") =
      some (insertMap [] "last_active" Season.SkyStone.display) ∧
    teamStep (some []) ("rookie_year", .str "2019") =
      some (insertMap [] "rookie_year" "2019") :=
  ⟨last_active_label_substitution.1 [] (.str "1920") "1920" Season.SkyStone rfl (by decide),
   last_active_label_substitution.2.1 [] "rookie_year" (.str "2019") "2019" (by decide) rfl⟩

/-- Claim C9: both property normalizers fail, producing no partial map,
when the body is not valid JSON, the parsed value is not an array, or the
array is empty; on a non-empty array the computation always proceeds with
the first element (the error branch of indexing it is unreachable). -/
theorem properties_shape_failures :
    team_properties none = none ∧ event_properties none = none ∧
    (∀ j : Json, j.asArray = none →
      team_properties (some j) = none ∧ event_properties (some j) = none) ∧
    team_properties (some (.arr [])) = none ∧ event_properties (some (.arr [])) = none ∧
    (∀ v rest, team_properties (some (.arr (v :: rest))) = teamFromFirst v ∧
      event_properties (some (.arr (v :: rest))) = eventFromFirst v) := by
  refine ⟨rfl, rfl, ?_, rfl, rfl, fun v rest => ⟨rfl, rfl⟩⟩
  intro j h
  constructor
  · simp [team_properties, h]
  · simp [event_properties, h]

/-- Witness for C9: the not-an-array failure at a concrete JSON string
body. -/
theorem properties_shape_failures_witness :
    team_properties (some (.str "oops")) = none ∧
    event_properties (some (.str "oops")) = none :=
  properties_shape_failures.2.2.1 (.str "oops") rfl

/-- Claim C10: in both property normalizers a JSON number is accepted only
when it is a non-negative integer representable in a `u64` (serde's
`PosInt` variant, whose payload is below `2^64`); a negative integer or a
fractional float fails the whole operation instead of being coerced. -/
theorem number_coercion_u64_only :
    (∀ k (i : Int), i < 0 →
      team_properties (some (.arr [.obj [(k, .num (.negInt i))]])) = none ∧
      event_properties (some (.arr [.obj [(k, .num (.negInt i))]])) = none) ∧
    (∀ k (x : Rat), x.den ≠ 1 →
      team_properties (some (.arr [.obj [(k, .num (.float x))]])) = none ∧
      event_properties (some (.arr [.obj [(k, .num (.float x))]])) = none) ∧
    (∀ k (n : Nat), k ≠ "last_active" → n < 2 ^ 64 →
      team_properties (some (.arr [.obj [(k, .num (.posInt n))]])) = some [(k, toString n)] ∧
      event_properties (some (.arr [.obj [(k, .num (.posInt n))]])) = some [(k, toString n)]) := by
  refine ⟨fun k i _ => ⟨?_, ?_⟩, fun k x _ => ⟨?_, ?_⟩, fun k n hk _ => ⟨?_, ?_⟩⟩
  case refine_5 =>
    simp [team_properties, Json.asArray, teamFromFirst, Json.asObject,
      teamStep, coerceTeam, JNum.asU64, insertMap, hk]
  case refine_6 =>
    simp [event_properties, Json.asArray, eventFromFirst, Json.asObject,
      eventStep, coerceEvent, JNum.asU64, insertMap, hk]
  all_goals
    simp [team_properties, event_properties, Json.asArray, teamFromFirst, eventFromFirst,
      Json.asObject, teamStep, eventStep, coerceTeam, coerceEvent, JNum.asU64]

/-- Witness for C10: a negative integer and a fractional float fail, and
the in-range number 5 under the key "x" is coerced to "5", in both
normalizers. -/
theorem number_coercion_u64_only_witness :
    (team_properties (some (.arr [.obj [("x", .num (.negInt (-3)))]])) = none ∧
      event_properties (some (.arr [.obj [("x", .num (.negInt (-3)))]])) = none) ∧
    (team_properties (some (.arr [.obj [("x", .num (.float (mkRat 1 2)))]])) = none ∧
      event_properties (some (.arr [.obj [("x", .num (.float (mkRat 1 2)))]])) = none) ∧
    (team_properties (some (.arr [.obj [("x", .num (.posInt 5))]])) = some [("x", "5")] ∧
      event_properties (some (.arr [.obj [("x", .num (.posInt 5))]])) = some [("x", "5")]) := by
  refine ⟨number_coercion_u64_only.1 "x" (-3) (by decide),
    number_coercion_u64_only.2.1 "x" (mkRat 1 2) (by decide), ?_⟩
  have h := number_coercion_u64_only.2.2 "x" 5 (by decide) (by norm_num)
  exact ⟨h.1.trans (by decide), h.2.trans (by decide)⟩

/-- Counterexample to claim C2 as stated: a rankings array whose second
record has a malformed (non-numeric) team-number, yet the lookup for team
200 succeeds — the scan returns at the first full match and never
examines the later record, so "fails when any record's team-number field
is malformed" does not hold of the code. -/
theorem rankings_malformed_after_match_succeeds :
    get_rankings_data (some (.arr [
      .obj [("team", .obj [("team_number", .num (.posInt 200))]), ("rank", .num (.posInt 5))],
      .obj [("team", .obj [("team_number", .str "bad")])]])) 200 "rank" = some 5 ∧
    ((Json.obj [("team", .obj [("team_number", .str "bad")])]).index "team").index
      "team_number" = .str "bad" ∧
    (Json.str "bad").asF64 = none := by
  refine ⟨by decide, rfl, rfl⟩

/-- Claim C2 as amended: `Event::get_rankings_data` scans the decoded
array in order and returns the query field of the first record whose
team-number is well formed and equal (after the `f64`-to-`u32` cast) to
the requested number and whose query field is numeric.  It fails when the
body is not valid JSON or not an array, when the scan reaches a record
with a malformed team-number before returning, and when the scan exhausts
the array; a record whose team-number matches but whose query field is
missing or non-numeric is skipped and the scan continues.  It never
substitutes a default value: every success is a value read from a
record. -/
theorem rankings_scan_characterization (t : Nat) (q : String) :
    get_rankings_data none t q = none ∧
    (∀ j : Json, j.asArray = none → get_rankings_data (some j) t q = none) ∧
    (∀ arr, get_rankings_data (some (.arr arr)) t q = rankLoop arr t q) ∧
    rankLoop [] t q = none ∧
    (∀ v rest, ((v.index "team").index "team_number").asF64 = none →
      rankLoop (v :: rest) t q = none) ∧
    (∀ v rest n, ((v.index "team").index "team_number").asF64 = some n →
      ratToU32 n ≠ t → rankLoop (v :: rest) t q = rankLoop rest t q) ∧
    (∀ v rest n, ((v.index "team").index "team_number").asF64 = some n →
      ratToU32 n = t → (v.index q).asF64 = none →
      rankLoop (v :: rest) t q = rankLoop rest t q) ∧
    (∀ v rest n r, ((v.index "team").index "team_number").asF64 = some n →
      ratToU32 n = t → (v.index q).asF64 = some r →
      rankLoop (v :: rest) t q = some r) := by
  refine ⟨rfl, ?_, fun arr => rfl, rfl, ?_, ?_, ?_, ?_⟩
  · intro j h; simp [get_rankings_data, h]
  · intro v rest h; simp [rankLoop, h]
  · intro v rest n h hne; simp [rankLoop, h, hne]
  · intro v rest n h ht hq; simp [rankLoop, h, ht, hq]
  · intro v rest n r h ht hq; simp [rankLoop, h, ht, hq]

/-- Witness for C2 (amended): the scan at a concrete one-record array for
team 200, discharging each hypothesis by evaluation. -/
theorem rankings_scan_characterization_witness :
    rankLoop [.obj [("team", .obj [("team_number", .num (.posInt 200))]),
      ("rank", .num (.posInt 5))]] 200 "rank" = some ((5 : Nat) : Rat) :=
  (rankings_scan_characterization 200 "rank").2.2.2.2.2.2.2
    (.obj [("team", .obj [("team_number", .num (.posInt 200))]), ("rank", .num (.posInt 5))])
    [] ((200 : Nat) : Rat) ((5 : Nat) : Rat) (by decide) (by decide) (by decide)

/-- Claim C3: `Team::get_season_data` fails when the body is not valid
JSON or not an array and when any record's query field is missing or
non-numeric; when every record yields a number it returns the sum of
those numbers rounded to two decimal places by `round(sum * 100) / 100`
with half-away-from-zero rounding (`f64::round`, modelled by
`roundRust`). -/
theorem season_sum_rounded (q : String) :
    get_season_data none q = none ∧
    (∀ j : Json, j.asArray = none → get_season_data (some j) q = none) ∧
    (∀ arr, (∃ v ∈ arr, (Json.index v q).asF64 = none) →
      get_season_data (some (.arr arr)) q = none) ∧
    (∀ arr ns, extractNums arr q = some ns →
      get_season_data (some (.arr arr)) q =
        some ((roundRust (ns.sum * 100) : Rat) / 100)) := by
  refine ⟨rfl, ?_, ?_, ?_⟩
  · intro j h; simp [get_season_data, h]
  · intro arr h
    have hx := extractNums_none_of_bad arr q h
    have hs := sumLoop_eq_extractNums arr q 0
    rw [hx] at hs
    simp at hs
    simp [get_season_data, Json.asArray, hs]
  · intro arr ns h
    have hs := sumLoop_eq_extractNums arr q 0
    rw [h] at hs
    simp at hs
    simp [get_season_data, Json.asArray, hs]

/-- Witness for C3: the sum 2.1 + 3 over two records, rounded: the scan
yields 5.1 and `round(5.1 * 100) / 100 = 5.1`. -/
theorem season_sum_rounded_witness :
    get_season_data (some (.arr [.obj [("wins", .num (.float (mkRat 21 10)))],
      .obj [("wins", .num (.posInt 3))]])) "wins" = some (mkRat 51 10) := by
  have h := (season_sum_rounded "wins").2.2.2
    [.obj [("wins", .num (.float (mkRat 21 10)))], .obj [("wins", .num (.posInt 3))]]
    [mkRat 21 10, ((3 : Nat) : Rat)] (by decide)
  rw [h]
  with_unfolding_all decide

/-- Claim C7: in the event map built by `Team::events`, the candidate key
is the event's display name with spaces replaced by underscores,
lower-cased; when that key is already present, the key becomes the
candidate followed by "_" and the event's raw key with every occurrence
of the pattern `\d{4}-\w+-` stripped, lower-cased — so two events with
the same display name and distinct raw keys yield two distinct entries,
the second suffixed by that rule. -/
theorem events_key_disambiguation (name k1 k2 : String) (_hk : k1 ≠ k2) :
    eventsFold [(k1, name), (k2, name)] =
      [(candKey name, k1), (candKey name ++ "_" ++ lowerStr (stripPat k2), k2)] ∧
    candKey name ++ "_" ++ lowerStr (stripPat k2) ≠ candKey name := by
  have hne := append_underscore_ne (candKey name) (lowerStr (stripPat k2))
  have hne2 : ¬candKey name = candKey name ++ "_" ++ lowerStr (stripPat k2) :=
    fun h => hne h.symm
  refine ⟨?_, hne⟩
  simp [eventsFold, eventsStep, containsKey, insertMap, hne, hne2]

/-- Witness for C7: two events named "State Championship" with raw keys
"1920-TX-SCQ1" and "1920-CA-SCQ2" produce two distinct entries, the
second suffixed with the stripped raw key "scq2". -/
theorem events_key_disambiguation_witness :
    eventsFold [("1920-TX-SCQ1", "State Championship"),
      ("1920-CA-SCQ2", "State Championship")] =
      [("state_championship", "1920-TX-SCQ1"), ("state_championship_scq2", "1920-CA-SCQ2")] :=
  (events_key_disambiguation "State Championship" "1920-TX-SCQ1" "1920-CA-SCQ2"
    (by decide)).1.trans (by decide)
